import Mathlib

/-!
Shallow embedding of the streak-simulation engine of the
"Are Streaks Real?" application.

The engine (`simulateBackendCall` in `src/App.tsx`) generates
pseudo-random 100-trial binary runs, scans each run for non-overlapping
two-in-a-row success streaks, accumulates two counters across runs, and
emits snapshots of the running conditional-probability estimate at
checkpoint intervals.  `Math.random()` is modelled as a stream of
rational numbers `rand : ℕ → ℚ` indexed by how many values have been
consumed so far; JavaScript numbers are modelled as rationals.
-/

/- Core marks the arithmetic on `Rat` irreducible for the elaborator
(the compiled code uses an external implementation), although the Lean
definitions are perfectly kernel-computable.  Restore the default
transparency so that concrete runs of the engine can be evaluated with
`decide`. -/
set_option allowUnsafeReducibility true in
attribute [semireducible] Rat.inv Rat.mul Rat.sub Rat.add

set_option maxRecDepth 100000

namespace StreakSim

/-- The `Snapshot` record of `App.tsx`. -/
structure Snapshot where
  sequences : ℕ
  estimate : ℚ
  input_rate : ℚ
  difference : ℚ
  deriving DecidableEq, Repr

/-- The `ExperimentParams` record (the `isComparison` UI flag is omitted:
`simulateBackendCall` never reads it). -/
structure ExperimentParams where
  successRate : ℚ
  numSequences : ℕ
  seed : Option ℤ
  deriving DecidableEq, Repr

/-- One generated run:
`Array.from({ length: 100 }, () => Math.random() < successRate ? 1 : 0)`.
`off` is how many random values were consumed before this run started. -/
def mkSequence (rand : ℕ → ℚ) (off : ℕ) (successRate : ℚ) : List ℕ :=
  (List.range 100).map (fun j => if rand (off + j) < successRate then 1 else 0)

/-- The streak-scanner loop of `simulateBackendCall`:
`for (let i = 0; i < 98; i++)` with `i += 2` on a match, so the next
iteration resumes at `i + 3`.  Out-of-range JavaScript indexing yields
`undefined`, and `undefined === 1` is false, which `List.getD _ _ 0`
reproduces.  The loop body runs at most 98 times, so a structural fuel
of 98 makes the recursion total without changing any value reachable
from `scanStreaks`. -/
def scanAux (seq : List ℕ) : ℕ → ℕ → ℕ → ℕ → ℕ × ℕ
  | 0, _, streakTotal, streakSuccess => (streakTotal, streakSuccess)
  | fuel + 1, i, streakTotal, streakSuccess =>
    if i < 98 then
      if seq.getD i 0 = 1 ∧ seq.getD (i + 1) 0 = 1 then
        if i + 2 < 100 then
          scanAux seq fuel (i + 3) (streakTotal + 1)
            (if seq.getD (i + 2) 0 = 1 then streakSuccess + 1 else streakSuccess)
        else
          scanAux seq fuel (i + 3) streakTotal streakSuccess
      else
        scanAux seq fuel (i + 1) streakTotal streakSuccess
    else (streakTotal, streakSuccess)

/-- Running the scanner over one run, starting from the cumulative
counters (`streakTotal`, `streakSuccess` are declared outside the run
loop in the source and are never reset). -/
def scanStreaks (seq : List ℕ) (streakTotal streakSuccess : ℕ) : ℕ × ℕ :=
  scanAux seq 98 0 streakTotal streakSuccess

/-- `streakTotal > 0 ? streakSuccess / streakTotal : 0`. -/
def estimateOf (streakTotal streakSuccess : ℕ) : ℚ :=
  if 0 < streakTotal then (streakSuccess : ℚ) / streakTotal else 0

/-- The mutable state threaded through the run loop of
`simulateBackendCall`. -/
structure SimState where
  streakTotal : ℕ
  streakSuccess : ℕ
  snapshots : List Snapshot
  deriving DecidableEq, Repr

/-- The body of `for (let seqNum = 1; seqNum <= numSequences; seqNum++)`:
generate one run, scan it, and push a snapshot when
`seqNum % snapshotInterval === 0 || seqNum === numSequences`. -/
def processRun (rand : ℕ → ℚ) (successRate : ℚ) (snapshotInterval numSequences : ℕ)
    (st : SimState) (seqNum : ℕ) : SimState :=
  let sequence := mkSequence rand (100 * (seqNum - 1)) successRate
  let scanned := scanStreaks sequence st.streakTotal st.streakSuccess
  if seqNum % snapshotInterval = 0 ∨ seqNum = numSequences then
    let estimate := estimateOf scanned.1 scanned.2
    { streakTotal := scanned.1, streakSuccess := scanned.2,
      snapshots := st.snapshots ++
        [{ sequences := seqNum, estimate := estimate,
           input_rate := successRate, difference := estimate - successRate }] }
  else
    { streakTotal := scanned.1, streakSuccess := scanned.2,
      snapshots := st.snapshots }

/-- The value returned by the engine.  The source declares
`final: Snapshot` but computes it as `snapshots[snapshots.length - 1]`,
which is `undefined` on an empty list, hence `Option`. -/
structure SimResult where
  snapshots : List Snapshot
  final : Option Snapshot
  deriving DecidableEq, Repr

/-- `simulateBackendCall` of `src/App.tsx`.  `rand` is the
`Math.random()` stream; the `seed` field is only ever logged by the
source, never consumed. -/
def simulateBackendCall (params : ExperimentParams) (rand : ℕ → ℚ) : SimResult :=
  let snapshotInterval := max 1 (params.numSequences / 10)
  let finalState := (List.range' 1 params.numSequences).foldl
    (processRun rand params.successRate snapshotInterval params.numSequences)
    { streakTotal := 0, streakSuccess := 0, snapshots := [] }
  { snapshots := finalState.snapshots, final := finalState.snapshots.getLast? }

/-- The cumulative counters after `k` completed runs (run `k` consumes
the random values at indices `100*(k-1) .. 100*k - 1`). -/
def countersAfter (rand : ℕ → ℚ) (successRate : ℚ) : ℕ → ℕ × ℕ
  | 0 => (0, 0)
  | k + 1 =>
    let prev := countersAfter rand successRate k
    scanStreaks (mkSequence rand (100 * k) successRate) prev.1 prev.2

/-- The Streak Scanner as the specification describes it: visit indices
`i` from 0 up to but not including 98; when trials `i` and `i + 1` are
both successes, count one occurrence (counted a success exactly when
trial `i + 2` also succeeds) and resume the scan at `i + 3`; otherwise
move to `i + 1`.  Returns the pair (occurrences, successful
occurrences) contributed by the scan from position `i` on. -/
def specScanCounters (seq : List ℕ) (i : ℕ) : ℕ × ℕ :=
  if _h : i < 98 then
    if seq.getD i 0 = 1 ∧ seq.getD (i + 1) 0 = 1 then
      ((specScanCounters seq (i + 3)).1 + 1,
        (specScanCounters seq (i + 3)).2 + (if seq.getD (i + 2) 0 = 1 then 1 else 0))
    else
      specScanCounters seq (i + 1)
  else (0, 0)
termination_by 98 - i
decreasing_by
  all_goals omega

/-- Outcome of the UI form submit handler: either an error message is
shown and the engine is never invoked, or `onRun` is called with the
validated parameters. -/
inductive SubmitResult where
  | rejected (msg : String)
  | accepted (params : ExperimentParams)
  deriving DecidableEq, Repr

/-- `handleSubmit` of the `InputForm` components: validates the bounds
before calling `onRun` (the seed string parse `seed ? Number(seed) :
undefined` is modelled directly as an optional integer). -/
def handleSubmit (successRate : ℚ) (numSequences : ℕ) (seed : Option ℤ) : SubmitResult :=
  if successRate < 1/10 ∨ successRate > 9/10 then
    SubmitResult.rejected "Success rate must be between 0.1 and 0.9"
  else if numSequences < 1 then
    SubmitResult.rejected "Number of sequences must be at least 1"
  else
    SubmitResult.accepted
      { successRate := successRate, numSequences := numSequences, seed := seed }

/-- The loop of the fallback frontend engine (`handleRun` of the simple
`App` variant):
`for (let i = 1; i <= numSequences; i += Math.max(1, Math.floor(numSequences / 10)))`.
Each iteration consumes one `Math.random()` value; `idx` indexes the
stream.  The step is at least 1, so at most `numSequences` iterations
run and a structural fuel of `numSequences` is enough. -/
def fallbackAux (rand : ℕ → ℚ) (successRate : ℚ) (numSequences : ℕ) :
    ℕ → ℕ → ℕ → List Snapshot
  | 0, _, _ => []
  | fuel + 1, i, idx =>
    if i ≤ numSequences then
      let est := successRate + (rand idx - 1/2) * (1/20)
      { sequences := i, estimate := est, input_rate := successRate,
        difference := est - successRate } ::
        fallbackAux rand successRate numSequences fuel
          (i + max 1 (numSequences / 10)) (idx + 1)
    else []

/-- The state of the run loop of `simulateBackendCall` after the first
`m` of the `numSequences` runs. -/
def simStateAfter (rand : ℕ → ℚ) (successRate : ℚ)
    (snapshotInterval numSequences m : ℕ) : SimState :=
  (List.range' 1 m).foldl
    (processRun rand successRate snapshotInterval numSequences)
    { streakTotal := 0, streakSuccess := 0, snapshots := [] }

/-- `handleRun` of the fallback `App` variant: fake snapshots built
directly from `successRate` plus a random perturbation — no sequence is
generated and no streak is scanned.  The `seed` parameter is
destructured but never used. -/
def handleRun (rand : ℕ → ℚ) (successRate : ℚ) (numSequences : ℕ)
    (seed : Option ℤ) : SimResult :=
  let snaps := fallbackAux rand successRate numSequences numSequences 1 0
  { snapshots := snaps, final := snaps.getLast? }

/-! ### Scanner lemmas -/

/-- The scanner only ever adds to the incoming accumulators: running it
from `(t, s)` yields the run from `(0, 0)` shifted by `(t, s)`. -/
theorem scanAux_acc (seq : List ℕ) :
    ∀ fuel i t s, scanAux seq fuel i t s =
      (t + (scanAux seq fuel i 0 0).1, s + (scanAux seq fuel i 0 0).2) := by
  intro fuel
  induction fuel with
  | zero => intro i t s; simp [scanAux]
  | succ fuel ih =>
    intro i t s
    simp only [scanAux]
    split
    · split
      · split
        · split
          · rw [ih (i + 3) (t + 1) (s + 1), ih (i + 3) (0 + 1) (0 + 1)]
            simp only [Prod.mk.injEq]
            omega
          · rw [ih (i + 3) (t + 1) s, ih (i + 3) (0 + 1) 0]
            simp only [Prod.mk.injEq]
            omega
        · rw [ih (i + 3) t s, ih (i + 3) 0 0]
      · rw [ih (i + 1) t s, ih (i + 1) 0 0]
    · simp

/-- The scanner preserves `streakSuccess ≤ streakTotal`. -/
theorem scanAux_le (seq : List ℕ) :
    ∀ fuel i t s, s ≤ t → (scanAux seq fuel i t s).2 ≤ (scanAux seq fuel i t s).1 := by
  intro fuel
  induction fuel with
  | zero => intro i t s h; simpa [scanAux] using h
  | succ fuel ih =>
    intro i t s h
    simp only [scanAux]
    split
    · split
      · split
        · split
          · exact ih _ _ _ (by omega)
          · exact ih _ _ _ (by omega)
        · exact ih _ _ _ h
      · exact ih _ _ _ h
    · simpa using h

/-- With enough fuel (`98 ≤ fuel + i`, true at the call site `fuel = 98`,
`i = 0`), the fueled source loop computes exactly the scan described by
the specification. -/
theorem scanAux_eq_specScan (seq : List ℕ) :
    ∀ fuel i, 98 ≤ fuel + i → scanAux seq fuel i 0 0 = specScanCounters seq i := by
  intro fuel
  induction fuel with
  | zero =>
    intro i hi
    rw [specScanCounters]
    rw [dif_neg (by omega)]
    simp [scanAux]
  | succ fuel ih =>
    intro i hi
    rw [specScanCounters]
    by_cases h1 : i < 98
    · rw [dif_pos h1]
      simp only [scanAux, if_pos h1]
      by_cases h2 : seq.getD i 0 = 1 ∧ seq.getD (i + 1) 0 = 1
      · rw [if_pos h2, if_pos (show i + 2 < 100 by omega), if_pos h2]
        rw [scanAux_acc seq fuel (i + 3) (0 + 1) _, ih (i + 3) (by omega)]
        simp only [Prod.mk.injEq]
        constructor
        · omega
        · split <;> omega
      · rw [if_neg h2, if_neg h2]
        exact ih (i + 1) (by omega)
    · rw [dif_neg h1]
      simp [scanAux, h1]

/-- The inner loop of `simulateBackendCall` adds to the cumulative
counters exactly the contribution of the scan that the specification
describes. -/
theorem scanStreaks_eq_spec (seq : List ℕ) (t s : ℕ) :
    scanStreaks seq t s =
      (t + (specScanCounters seq 0).1, s + (specScanCounters seq 0).2) := by
  unfold scanStreaks
  rw [scanAux_acc seq 98 0 t s, scanAux_eq_specScan seq 98 0 (by omega)]

/-! ### Simulation-loop lemmas -/

theorem simulateBackendCall_eq (params : ExperimentParams) (rand : ℕ → ℚ) :
    simulateBackendCall params rand =
      { snapshots := (simStateAfter rand params.successRate
          (max 1 (params.numSequences / 10)) params.numSequences
          params.numSequences).snapshots,
        final := (simStateAfter rand params.successRate
          (max 1 (params.numSequences / 10)) params.numSequences
          params.numSequences).snapshots.getLast? } := rfl

theorem simStateAfter_succ (rand : ℕ → ℚ) (successRate : ℚ)
    (snapshotInterval numSequences m : ℕ) :
    simStateAfter rand successRate snapshotInterval numSequences (m + 1) =
      processRun rand successRate snapshotInterval numSequences
        (simStateAfter rand successRate snapshotInterval numSequences m) (1 + m) := by
  unfold simStateAfter
  rw [List.range'_concat, List.foldl_append]
  simp

/-- The loop state's counters agree with `countersAfter`. -/
theorem simStateAfter_counters (rand : ℕ → ℚ) (successRate : ℚ)
    (snapshotInterval numSequences : ℕ) : ∀ m,
    (simStateAfter rand successRate snapshotInterval numSequences m).streakTotal =
        (countersAfter rand successRate m).1 ∧
    (simStateAfter rand successRate snapshotInterval numSequences m).streakSuccess =
        (countersAfter rand successRate m).2 := by
  intro m
  induction m with
  | zero => exact ⟨rfl, rfl⟩
  | succ m ih =>
    rw [simStateAfter_succ]
    simp only [processRun]
    rw [show 1 + m - 1 = m by omega]
    simp only [countersAfter]
    rw [← ih.1, ← ih.2]
    split <;> exact ⟨rfl, rfl⟩

/-- The `sequences` fields of the emitted snapshots are exactly the run
numbers passing the checkpoint test, in order. -/
theorem simStateAfter_map (rand : ℕ → ℚ) (successRate : ℚ)
    (snapshotInterval numSequences : ℕ) : ∀ m,
    (simStateAfter rand successRate snapshotInterval numSequences m).snapshots.map
        (fun snap => snap.sequences) =
      (List.range' 1 m).filter
        (fun k => decide (k % snapshotInterval = 0 ∨ k = numSequences)) := by
  intro m
  induction m with
  | zero => rfl
  | succ m ih =>
    rw [simStateAfter_succ, List.range'_concat, List.filter_append]
    simp only [processRun, one_mul]
    split
    · next h =>
      simp only [List.map_append, ih, List.filter_cons, List.filter_nil]
      rw [if_pos (by simpa using h)]
      simp
    · next h =>
      simp only [ih, List.filter_cons, List.filter_nil]
      rw [if_neg (by simpa using h)]
      simp

/-- Every snapshot in the loop state carries the request rate, a
difference that is exactly `estimate - input_rate`, and an estimate
computed by `estimateOf` from the cumulative counters at its own
`sequences` count. -/
theorem simStateAfter_mem (rand : ℕ → ℚ) (successRate : ℚ)
    (snapshotInterval numSequences : ℕ) : ∀ m snap,
    snap ∈ (simStateAfter rand successRate snapshotInterval numSequences m).snapshots →
      snap.input_rate = successRate ∧
      snap.difference = snap.estimate - successRate ∧
      snap.estimate = estimateOf (countersAfter rand successRate snap.sequences).1
        (countersAfter rand successRate snap.sequences).2 := by
  intro m
  induction m with
  | zero => intro snap h; simp [simStateAfter] at h
  | succ m ih =>
    intro snap h
    rw [simStateAfter_succ] at h
    simp only [processRun] at h
    split at h
    · rw [List.mem_append] at h
      rcases h with h | h
      · exact ih snap h
      · rw [List.mem_singleton] at h
        subst h
        refine ⟨rfl, rfl, ?_⟩
        simp only
        rw [show 1 + m - 1 = m by omega, add_comm 1 m]
        simp only [countersAfter]
        rw [← (simStateAfter_counters rand successRate snapshotInterval numSequences m).1,
          ← (simStateAfter_counters rand successRate snapshotInterval numSequences m).2]
    · exact ih snap h

/-- `streakSuccess ≤ streakTotal` holds after every completed run. -/
theorem countersAfter_le (rand : ℕ → ℚ) (successRate : ℚ) : ∀ m,
    (countersAfter rand successRate m).2 ≤ (countersAfter rand successRate m).1 := by
  intro m
  induction m with
  | zero => exact le_refl 0
  | succ m ih =>
    simp only [countersAfter]
    exact scanAux_le _ _ _ _ _ ih

theorem estimateOf_nonneg (streakTotal streakSuccess : ℕ) :
    0 ≤ estimateOf streakTotal streakSuccess := by
  unfold estimateOf
  split
  · positivity
  · exact le_refl 0

theorem estimateOf_le_one (streakTotal streakSuccess : ℕ)
    (h : streakSuccess ≤ streakTotal) : estimateOf streakTotal streakSuccess ≤ 1 := by
  unfold estimateOf
  split
  · next ht =>
    rw [div_le_one (by exact_mod_cast ht)]
    exact_mod_cast h
  · norm_num

/-! ### Counting lemmas for the checkpoint bound -/

theorem countP_mod_range' (q : ℕ) : ∀ n,
    (List.range' 1 n).countP (fun k => decide (k % q = 0)) = n / q := by
  intro n
  induction n with
  | zero => simp
  | succ n ih =>
    rw [List.range'_concat, List.countP_append, ih, Nat.succ_div]
    simp only [one_mul, List.countP_cons, List.countP_nil]
    by_cases h : q ∣ n + 1
    · rw [if_pos h, if_pos]
      simpa [Nat.add_comm 1 n] using Nat.dvd_iff_mod_eq_zero.mp h
    · rw [if_neg h, if_neg]
      simp only [decide_eq_true_eq]
      rw [Nat.add_comm 1 n]
      exact fun hc => h (Nat.dvd_iff_mod_eq_zero.mpr hc)

theorem countP_eq_range'_zero (x : ℕ) : ∀ m s, x < s →
    (List.range' s m).countP (fun k => decide (k = x)) = 0 := by
  intro m
  induction m with
  | zero => intro s _; rfl
  | succ m ih =>
    intro s hs
    rw [List.range'_succ, List.countP_cons]
    rw [ih (s + 1) (by omega)]
    simp
    omega

theorem countP_eq_range'_le_one (x : ℕ) : ∀ m s,
    (List.range' s m).countP (fun k => decide (k = x)) ≤ 1 := by
  intro m
  induction m with
  | zero => intro s; simp
  | succ m ih =>
    intro s
    rw [List.range'_succ, List.countP_cons]
    by_cases h : s = x
    · rw [countP_eq_range'_zero x m (s + 1) (by omega)]
      simp [h]
    · simpa [h] using ih (s + 1)

theorem countP_or_le (l : List ℕ) (p r : ℕ → Prop)
    [DecidablePred p] [DecidablePred r] :
    l.countP (fun a => decide (p a ∨ r a)) ≤
      l.countP (fun a => decide (p a)) + l.countP (fun a => decide (r a)) := by
  induction l with
  | nil => simp
  | cons a l ih =>
    simp only [List.countP_cons]
    by_cases hp : p a
    · by_cases hr : r a
      · rw [if_pos (show decide (p a ∨ r a) = true by simp [hp]),
          if_pos (show decide (p a) = true by simp [hp]),
          if_pos (show decide (r a) = true by simp [hr])]
        omega
      · rw [if_pos (show decide (p a ∨ r a) = true by simp [hp]),
          if_pos (show decide (p a) = true by simp [hp]),
          if_neg (show ¬decide (r a) = true by simp [hr])]
        omega
    · by_cases hr : r a
      · rw [if_pos (show decide (p a ∨ r a) = true by simp [hr]),
          if_neg (show ¬decide (p a) = true by simp [hp]),
          if_pos (show decide (r a) = true by simp [hr])]
        omega
      · rw [if_neg (show ¬decide (p a ∨ r a) = true by simp [hp, hr]),
          if_neg (show ¬decide (p a) = true by simp [hp]),
          if_neg (show ¬decide (r a) = true by simp [hr])]
        omega

/-! ### Fallback-engine lemmas -/

/-- Characterization of the `j`-th snapshot produced by the fallback
loop, provided the fuel covers every iteration the source loop makes
(`numSequences < i + fuel`, true at the call site). -/
theorem fallbackAux_getD (rand : ℕ → ℚ) (successRate : ℚ) (numSequences : ℕ) :
    ∀ fuel i idx, numSequences < i + fuel → ∀ j,
      j < (fallbackAux rand successRate numSequences fuel i idx).length →
      (fallbackAux rand successRate numSequences fuel i idx).getD j
          { sequences := 0, estimate := 0, input_rate := 0, difference := 0 } =
        { sequences := i + j * max 1 (numSequences / 10),
          estimate := successRate + (rand (idx + j) - 1/2) * (1/20),
          input_rate := successRate,
          difference := (successRate + (rand (idx + j) - 1/2) * (1/20)) - successRate } := by
  intro fuel
  induction fuel with
  | zero =>
    intro i idx _ j hj
    simp [fallbackAux] at hj
  | succ fuel ih =>
    intro i idx hfuel j hj
    simp only [fallbackAux] at hj ⊢
    by_cases hi : i ≤ numSequences
    · rw [if_pos hi] at hj ⊢
      match j with
      | 0 =>
        rw [List.getD_cons_zero]
        simp
      | j + 1 =>
        rw [List.getD_cons_succ]
        rw [List.length_cons] at hj
        rw [ih (i + max 1 (numSequences / 10)) (idx + 1) (by omega) j (by omega)]
        have h1 : i + max 1 (numSequences / 10) + j * max 1 (numSequences / 10) =
            i + (j + 1) * max 1 (numSequences / 10) := by ring
        have h2 : idx + 1 + j = idx + (j + 1) := by ring
        rw [h1, h2]
    · rw [if_neg hi] at hj
      simp at hj

/-- The final loop step always pushes a snapshot carrying the full run
count. -/
theorem simStateAfter_final (rand : ℕ → ℚ) (successRate : ℚ)
    (snapshotInterval numSequences m : ℕ) (hn : numSequences = m + 1) :
    ∃ f, (simStateAfter rand successRate snapshotInterval numSequences
        (m + 1)).snapshots.getLast? = some f ∧ f.sequences = 1 + m := by
  rw [simStateAfter_succ]
  simp only [processRun]
  rw [if_pos (Or.inr (show 1 + m = numSequences by omega))]
  exact ⟨_, List.getLast?_concat _, rfl⟩

/-- The checkpoint test for `numSequences = 10000` selects exactly the
multiples of 1000. -/
theorem filter_range_10000 :
    (List.range' 1 10000).filter
      (fun k => decide (k % max 1 (10000 / 10) = 0 ∨ k = 10000)) =
    [1000, 2000, 3000, 4000, 5000, 6000, 7000, 8000, 9000, 10000] := by decide

/-! ### Claim theorems -/

/-- C1: the inner loop of `simulateBackendCall` (the Streak Scanner)
computes exactly the counters of the left-to-right scan the claim
describes (`specScanCounters`: on a success pair at `i`, `i + 1` it adds
one occurrence, adds one success exactly when trial `i + 2` succeeds,
and resumes at `i + 3`; otherwise it moves to `i + 1`).  In particular,
a 100-trial run whose only successes are at indices 98 and 99
contributes zero to both counters, and one whose only successes are at
indices 0, 1, 2, 3 contributes exactly one occurrence to
`streakTotal`. -/
theorem streak_scanner_matches_spec_scan :
    (∀ (seq : List ℕ) (streakTotal streakSuccess : ℕ),
      scanStreaks seq streakTotal streakSuccess =
        (streakTotal + (specScanCounters seq 0).1,
          streakSuccess + (specScanCounters seq 0).2)) ∧
    scanStreaks ((List.range 100).map fun j => if 98 ≤ j then 1 else 0) 0 0 = (0, 0) ∧
    (scanStreaks ((List.range 100).map fun j => if j < 4 then 1 else 0) 0 0).1 = 1 :=
  ⟨scanStreaks_eq_spec, by decide, by decide⟩

/-- C2 (refuted by the code): the seed is logged but never fed to the
random source, so two invocations with identical `success_rate`,
`num_sequences`, and seed that read different `Math.random()` streams
return different snapshot lists — fixing the seed does not make the
engine deterministic. -/
theorem seed_ignored_breaks_determinism :
    simulateBackendCall { successRate := 1/2, numSequences := 1, seed := some 42 }
        (fun _ => 0) ≠
      simulateBackendCall { successRate := 1/2, numSequences := 1, seed := some 42 }
        (fun _ => 9/10) := by
  decide

/-- C3 (refuting the claim as stated): the engine does not reject
invalid parameters.  With `success_rate = 2` (outside `(0,1)`) it
generates and scans a run and returns a snapshot list, and with
`num_sequences = 0` it returns an empty snapshot list with an undefined
`final` instead of an error. -/
theorem engine_accepts_invalid_params :
    (simulateBackendCall { successRate := 2, numSequences := 1, seed := none }
        (fun _ => 1/2)).snapshots =
      [{ sequences := 1, estimate := 1, input_rate := 2, difference := -1 }] ∧
    simulateBackendCall { successRate := 1/2, numSequences := 0, seed := none }
        (fun _ => 0) =
      { snapshots := [], final := none } := by
  exact ⟨by decide, rfl⟩

/-- C3 (amended): parameter validation lives in the UI form handler
`handleSubmit`, which rejects `success_rate` outside `[0.1, 0.9]` or
`num_sequences < 1` synchronously and never invokes the engine; the
engine itself never rejects — for `num_sequences = 0` it returns an
empty snapshot list with an undefined `final` and no error. -/
theorem validation_in_form_not_engine :
    ∀ (successRate : ℚ) (numSequences : ℕ) (seed : Option ℤ) (rand : ℕ → ℚ),
      (successRate < 1/10 ∨ successRate > 9/10 →
        handleSubmit successRate numSequences seed =
          SubmitResult.rejected "Success rate must be between 0.1 and 0.9") ∧
      (¬(successRate < 1/10 ∨ successRate > 9/10) → numSequences < 1 →
        handleSubmit successRate numSequences seed =
          SubmitResult.rejected "Number of sequences must be at least 1") ∧
      (numSequences = 0 →
        simulateBackendCall
            { successRate := successRate, numSequences := numSequences, seed := seed }
            rand =
          { snapshots := [], final := none }) := by
  intro successRate numSequences seed rand
  refine ⟨fun h => ?_, fun h1 h2 => ?_, fun h => ?_⟩
  · unfold handleSubmit
    rw [if_pos h]
  · unfold handleSubmit
    rw [if_neg h1, if_pos h2]
  · subst h
    rfl

theorem validation_in_form_not_engine_witness :
    ((2 : ℚ) < 1/10 ∨ (2 : ℚ) > 9/10) ∧
    handleSubmit 2 5 none =
      SubmitResult.rejected "Success rate must be between 0.1 and 0.9" ∧
    ¬((1 : ℚ)/2 < 1/10 ∨ (1 : ℚ)/2 > 9/10) ∧ (0 : ℕ) < 1 ∧
    handleSubmit (1/2) 0 none =
      SubmitResult.rejected "Number of sequences must be at least 1" ∧
    simulateBackendCall { successRate := 1/2, numSequences := 0, seed := none }
        (fun _ => 0) =
      { snapshots := [], final := none } :=
  ⟨by norm_num,
   (validation_in_form_not_engine 2 5 none (fun _ => 0)).1 (by norm_num),
   by norm_num, by norm_num,
   (validation_in_form_not_engine (1/2) 0 none (fun _ => 0)).2.1 (by norm_num) (by norm_num),
   (validation_in_form_not_engine (1/2) 0 none (fun _ => 0)).2.2 rfl⟩

/-- C4: for every valid request (`num_sequences ≥ 1`) the snapshot list
is non-empty, `final` is its last element, and the final snapshot's
`sequences` equals `num_sequences` (the unconditional tail
checkpoint). -/
theorem final_snapshot_reflects_all_runs :
    ∀ (params : ExperimentParams) (rand : ℕ → ℚ), 1 ≤ params.numSequences →
      (simulateBackendCall params rand).snapshots ≠ [] ∧
      (simulateBackendCall params rand).final =
        (simulateBackendCall params rand).snapshots.getLast? ∧
      ∃ f, (simulateBackendCall params rand).final = some f ∧
        f.sequences = params.numSequences := by
  intro params rand h
  obtain ⟨m, hm⟩ : ∃ m, params.numSequences = m + 1 := ⟨params.numSequences - 1, by omega⟩
  rw [simulateBackendCall_eq, hm]
  dsimp only
  obtain ⟨f, hf, hfs⟩ := simStateAfter_final rand params.successRate
    (max 1 ((m + 1) / 10)) (m + 1) m rfl
  refine ⟨?_, rfl, f, hf, by omega⟩
  intro hnil
  rw [hnil] at hf
  simp at hf

theorem final_snapshot_reflects_all_runs_witness :
    1 ≤ (1 : ℕ) ∧
    ((simulateBackendCall { successRate := 1/2, numSequences := 1, seed := none }
        (fun _ => 0)).snapshots ≠ [] ∧
     (simulateBackendCall { successRate := 1/2, numSequences := 1, seed := none }
        (fun _ => 0)).final =
       (simulateBackendCall { successRate := 1/2, numSequences := 1, seed := none }
          (fun _ => 0)).snapshots.getLast? ∧
     ∃ f, (simulateBackendCall { successRate := 1/2, numSequences := 1, seed := none }
        (fun _ => 0)).final = some f ∧ f.sequences = 1) :=
  ⟨by norm_num,
   final_snapshot_reflects_all_runs
     { successRate := 1/2, numSequences := 1, seed := none } (fun _ => 0) (by norm_num)⟩

/-- C5: with `interval = max 1 (numSequences / 10)`, a snapshot is
emitted after run `k` exactly when `k % interval = 0` or
`k = numSequences` — the `sequences` fields of the output are exactly
the run numbers passing that test, in order — and for
`numSequences = 10000` the emitted snapshots are exactly the ten with
`sequences` 1000, 2000, ..., 10000. -/
theorem checkpoint_emission_policy :
    (∀ (params : ExperimentParams) (rand : ℕ → ℚ),
      (simulateBackendCall params rand).snapshots.map (fun snap => snap.sequences) =
        (List.range' 1 params.numSequences).filter
          (fun k => decide (k % max 1 (params.numSequences / 10) = 0 ∨
            k = params.numSequences))) ∧
    (∀ (params : ExperimentParams) (rand : ℕ → ℚ), params.numSequences = 10000 →
      (simulateBackendCall params rand).snapshots.map (fun snap => snap.sequences) =
        [1000, 2000, 3000, 4000, 5000, 6000, 7000, 8000, 9000, 10000]) := by
  constructor
  · intro params rand
    rw [simulateBackendCall_eq]
    exact simStateAfter_map rand params.successRate _ _ _
  · intro params rand h
    rw [simulateBackendCall_eq]
    rw [simStateAfter_map]
    rw [h]
    exact filter_range_10000

theorem checkpoint_emission_policy_witness :
    ({ successRate := 1/2, numSequences := 10000, seed := none } : ExperimentParams).numSequences = 10000 ∧
    (simulateBackendCall { successRate := 1/2, numSequences := 10000, seed := none }
        (fun _ => 0)).snapshots.map (fun snap => snap.sequences) =
      [1000, 2000, 3000, 4000, 5000, 6000, 7000, 8000, 9000, 10000] :=
  ⟨rfl,
   checkpoint_emission_policy.2
     { successRate := 1/2, numSequences := 10000, seed := none } (fun _ => 0) rfl⟩

/-- C6: every emitted snapshot carries the request's `success_rate` as
`input_rate`, a `difference` equal to `estimate - input_rate` exactly,
and an `estimate` equal to `streak_success / streak_total` computed from
the cumulative (never reset) counters after its own `sequences` runs,
with the `0` convention when `streak_total = 0` (`estimateOf`). -/
theorem estimate_and_difference_fields :
    ∀ (params : ExperimentParams) (rand : ℕ → ℚ) (snap : Snapshot),
      snap ∈ (simulateBackendCall params rand).snapshots →
        snap.input_rate = params.successRate ∧
        snap.difference = snap.estimate - snap.input_rate ∧
        snap.estimate =
          estimateOf (countersAfter rand params.successRate snap.sequences).1
            (countersAfter rand params.successRate snap.sequences).2 := by
  intro params rand snap h
  rw [simulateBackendCall_eq] at h
  have hmem := simStateAfter_mem rand params.successRate _ _ _ snap h
  refine ⟨hmem.1, ?_, hmem.2.2⟩
  rw [hmem.1]
  exact hmem.2.1

theorem estimate_and_difference_fields_witness :
    ({ sequences := 1, estimate := 1, input_rate := 1/2, difference := 1/2 } : Snapshot) ∈
      (simulateBackendCall { successRate := 1/2, numSequences := 1, seed := none }
        (fun _ => 0)).snapshots ∧
    (({ sequences := 1, estimate := 1, input_rate := 1/2, difference := 1/2 } : Snapshot).input_rate = (1/2 : ℚ) ∧
     ({ sequences := 1, estimate := 1, input_rate := 1/2, difference := 1/2 } : Snapshot).difference =
       ({ sequences := 1, estimate := 1, input_rate := 1/2, difference := 1/2 } : Snapshot).estimate -
         ({ sequences := 1, estimate := 1, input_rate := 1/2, difference := 1/2 } : Snapshot).input_rate ∧
     ({ sequences := 1, estimate := 1, input_rate := 1/2, difference := 1/2 } : Snapshot).estimate =
       estimateOf (countersAfter (fun _ => 0) (1/2) 1).1
         (countersAfter (fun _ => 0) (1/2) 1).2) :=
  ⟨by decide,
   estimate_and_difference_fields
     { successRate := 1/2, numSequences := 1, seed := none } (fun _ => 0)
     { sequences := 1, estimate := 1, input_rate := 1/2, difference := 1/2 }
     (by decide)⟩

/-- C7: the cumulative counters satisfy
`streak_success ≤ streak_total` after every completed run, and every
emitted snapshot satisfies `0 ≤ estimate ≤ 1`. -/
theorem counters_and_estimate_invariant :
    (∀ (rand : ℕ → ℚ) (successRate : ℚ) (m : ℕ),
      (countersAfter rand successRate m).2 ≤ (countersAfter rand successRate m).1) ∧
    (∀ (params : ExperimentParams) (rand : ℕ → ℚ) (snap : Snapshot),
      snap ∈ (simulateBackendCall params rand).snapshots →
        0 ≤ snap.estimate ∧ snap.estimate ≤ 1) := by
  refine ⟨countersAfter_le, ?_⟩
  intro params rand snap h
  rw [simulateBackendCall_eq] at h
  have hmem := simStateAfter_mem rand params.successRate _ _ _ snap h
  rw [hmem.2.2]
  exact ⟨estimateOf_nonneg _ _, estimateOf_le_one _ _ (countersAfter_le _ _ _)⟩

theorem counters_and_estimate_invariant_witness :
    ((countersAfter (fun _ => 0) (1/2) 1).2 ≤ (countersAfter (fun _ => 0) (1/2) 1).1) ∧
    ({ sequences := 1, estimate := 1, input_rate := 1/2, difference := 1/2 } : Snapshot) ∈
      (simulateBackendCall { successRate := 1/2, numSequences := 1, seed := none }
        (fun _ => 0)).snapshots ∧
    (0 ≤ ({ sequences := 1, estimate := 1, input_rate := 1/2, difference := 1/2 } : Snapshot).estimate ∧
     ({ sequences := 1, estimate := 1, input_rate := 1/2, difference := 1/2 } : Snapshot).estimate ≤ 1) :=
  ⟨counters_and_estimate_invariant.1 (fun _ => 0) (1/2) 1,
   by decide,
   counters_and_estimate_invariant.2
     { successRate := 1/2, numSequences := 1, seed := none } (fun _ => 0)
     { sequences := 1, estimate := 1, input_rate := 1/2, difference := 1/2 }
     (by decide)⟩

/-- C8 (refuting the claim as stated): for `num_sequences = 19` the
interval is `max 1 (19 / 10) = 1`, so a snapshot is emitted after every
run — 19 snapshots, substantially more than 11. -/
theorem snapshot_count_19_for_19_runs :
    (simulateBackendCall { successRate := 1/2, numSequences := 19, seed := none }
        (fun _ => 0)).snapshots.length = 19 ∧ 11 < 19 :=
  ⟨by decide, by norm_num⟩

/-- C8 (amended): the at-most-11-snapshots bound holds once
`num_sequences ≥ 100` (so that the interval is `num_sequences / 10` and
divides the range into ten blocks); for smaller `num_sequences` the
engine emits up to one snapshot per run, e.g. 19 snapshots for
`num_sequences = 19`. -/
theorem snapshot_count_le_eleven_for_large_n :
    ∀ (params : ExperimentParams) (rand : ℕ → ℚ), 100 ≤ params.numSequences →
      (simulateBackendCall params rand).snapshots.length ≤ 11 := by
  intro params rand h
  rw [simulateBackendCall_eq]
  have hmap := simStateAfter_map rand params.successRate
    (max 1 (params.numSequences / 10)) params.numSequences params.numSequences
  have hlen : (simStateAfter rand params.successRate
      (max 1 (params.numSequences / 10)) params.numSequences
      params.numSequences).snapshots.length =
      ((List.range' 1 params.numSequences).filter
        (fun k => decide (k % max 1 (params.numSequences / 10) = 0 ∨
          k = params.numSequences))).length := by
    rw [← hmap, List.length_map]
  simp only
  rw [hlen, ← List.countP_eq_length_filter]
  have hq : max 1 (params.numSequences / 10) = params.numSequences / 10 := by omega
  rw [hq]
  have hone := countP_eq_range'_le_one params.numSequences params.numSequences 1
  have hmod := countP_mod_range' (params.numSequences / 10) params.numSequences
  have hor := countP_or_le (List.range' 1 params.numSequences)
    (fun k => k % (params.numSequences / 10) = 0) (fun k => k = params.numSequences)
  have hdiv : params.numSequences / (params.numSequences / 10) = 10 :=
    Nat.div_eq_of_lt_le (by omega) (by omega)
  omega

theorem snapshot_count_le_eleven_for_large_n_witness :
    100 ≤ (100 : ℕ) ∧
    (simulateBackendCall { successRate := 1/2, numSequences := 100, seed := none }
        (fun _ => 0)).snapshots.length ≤ 11 :=
  ⟨by norm_num,
   snapshot_count_le_eleven_for_large_n
     { successRate := 1/2, numSequences := 100, seed := none } (fun _ => 0) (by norm_num)⟩

/-- C9: the engine's output does not depend on the seed at all — for any
two seed values (including present versus absent), the same random
stream yields identical results. -/
theorem output_independent_of_seed :
    ∀ (successRate : ℚ) (numSequences : ℕ) (seed1 seed2 : Option ℤ) (rand : ℕ → ℚ),
      simulateBackendCall
          { successRate := successRate, numSequences := numSequences, seed := seed1 }
          rand =
        simulateBackendCall
          { successRate := successRate, numSequences := numSequences, seed := seed2 }
          rand :=
  fun _ _ _ _ _ => rfl

/-- C10: the fallback frontend engine (`handleRun` of the simple `App`
variant) generates no sequences and scans no streaks — the `j`-th
snapshot has `sequences = 1 + j * interval`, an estimate equal to
`successRate` plus a random perturbation, and (for a random stream in
`[0, 1)`) a difference in `[-0.025, 0.025)`, regardless of
`numSequences` and seed. -/
theorem fallback_snapshots_characterization :
    ∀ (successRate : ℚ) (numSequences : ℕ) (seed : Option ℤ) (rand : ℕ → ℚ),
      (∀ k, 0 ≤ rand k ∧ rand k < 1) →
      ∀ j, j < (handleRun rand successRate numSequences seed).snapshots.length →
        ((handleRun rand successRate numSequences seed).snapshots.getD j
            { sequences := 0, estimate := 0, input_rate := 0, difference := 0 }).sequences =
          1 + j * max 1 (numSequences / 10) ∧
        ((handleRun rand successRate numSequences seed).snapshots.getD j
            { sequences := 0, estimate := 0, input_rate := 0, difference := 0 }).estimate =
          successRate + (rand j - 1/2) * (1/20) ∧
        ((handleRun rand successRate numSequences seed).snapshots.getD j
            { sequences := 0, estimate := 0, input_rate := 0, difference := 0 }).input_rate =
          successRate ∧
        -(1/40) ≤ ((handleRun rand successRate numSequences seed).snapshots.getD j
            { sequences := 0, estimate := 0, input_rate := 0, difference := 0 }).difference ∧
        ((handleRun rand successRate numSequences seed).snapshots.getD j
            { sequences := 0, estimate := 0, input_rate := 0, difference := 0 }).difference < 1/40 := by
  intro successRate numSequences seed rand hrand j hj
  have hchar := fallbackAux_getD rand successRate numSequences numSequences 1 0
    (by omega) j hj
  simp only [handleRun] at hj ⊢
  rw [hchar]
  simp only [Nat.zero_add]
  obtain ⟨hr0, hr1⟩ := hrand j
  refine ⟨trivial, trivial, trivial, ?_, ?_⟩
  · nlinarith
  · nlinarith

theorem fallback_snapshots_characterization_witness :
    0 < (handleRun (fun _ => (0 : ℚ)) (1/2) 1 none).snapshots.length ∧
    (((handleRun (fun _ => (0 : ℚ)) (1/2) 1 none).snapshots.getD 0
        { sequences := 0, estimate := 0, input_rate := 0, difference := 0 }).sequences =
      1 + 0 * max 1 (1 / 10) ∧
     ((handleRun (fun _ => (0 : ℚ)) (1/2) 1 none).snapshots.getD 0
        { sequences := 0, estimate := 0, input_rate := 0, difference := 0 }).estimate =
      1/2 + ((0 : ℚ) - 1/2) * (1/20) ∧
     ((handleRun (fun _ => (0 : ℚ)) (1/2) 1 none).snapshots.getD 0
        { sequences := 0, estimate := 0, input_rate := 0, difference := 0 }).input_rate =
      (1/2 : ℚ) ∧
     -(1/40) ≤ ((handleRun (fun _ => (0 : ℚ)) (1/2) 1 none).snapshots.getD 0
        { sequences := 0, estimate := 0, input_rate := 0, difference := 0 }).difference ∧
     ((handleRun (fun _ => (0 : ℚ)) (1/2) 1 none).snapshots.getD 0
        { sequences := 0, estimate := 0, input_rate := 0, difference := 0 }).difference < 1/40) :=
  ⟨by decide,
   fallback_snapshots_characterization (1/2) 1 none (fun _ => 0)
     (fun _ => ⟨le_refl 0, by norm_num⟩) 0 (by decide)⟩

end StreakSim
